import Mathlib

/-
Verification development for the mason look-ahead dynamics compressor
(src/mason/audio/CompressorNode.cpp).  The C++ float arithmetic is embedded
shallowly over the real numbers; machine indices are natural numbers.  The
bitmask wrap `x & MaxPreDelayFramesMask` of the source equals `x % 1024`
because the capacity 1024 is a power of two, and the embedding uses `% 1024`
directly.  Lean conventions `x / 0 = 0` and `logb b 0 = 0` stand in for the
IEEE special values at the isolated singular points; the non-finite
(NaN/Inf) fail-safe paths, which the reals cannot express, are modelled
separately with an `Option` tagged value type at the end of the file.
-/

set_option maxRecDepth 8000

namespace Mason

noncomputable section

open Real

/-- Capacity of the look-ahead pre-delay line (source line 34). -/
def MaxPreDelayFrames : Nat := 1024

/-- Default pre-delay in frames (source line 36). -/
def DefaultPreDelayFrames : Nat := 256

/-- decibelsToLinear (source lines 38-41): powf(10, 0.05 * decibels). -/
def decibelsToLinear (decibels : ℝ) : ℝ := (10 : ℝ) ^ (0.05 * decibels)

/-- linearToDecibels (source lines 43-50): 20 * log10f(linear). -/
def linearToDecibels (linear : ℝ) : ℝ := 20 * Real.logb 10 linear

/-- discreteTimeConstantForSampleRate (source lines 52-55). -/
def discreteTimeConstantForSampleRate (timeConstant sampleRate : ℝ) : ℝ :=
  1 - Real.exp (-1 / (sampleRate * timeConstant))

/-- Cached static-curve members of CompressorNode
(m_ratio, m_slope, ..., m_K; initialized at source lines 73-81). -/
structure CurveState where
  ratio : ℝ
  slope : ℝ
  linearThreshold : ℝ
  dbThreshold : ℝ
  dbKnee : ℝ
  kneeThreshold : ℝ
  kneeThresholdDb : ℝ
  ykneeThresholdDb : ℝ
  K : ℝ

/-- Curve members right after initialize() (source lines 73-81): all -1. -/
def initCurve : CurveState :=
  { ratio := -1, slope := -1, linearThreshold := -1, dbThreshold := -1,
    dbKnee := -1, kneeThreshold := -1, kneeThresholdDb := -1,
    ykneeThresholdDb := -1, K := -1 }

/-- kneeCurve (source lines 124-131). -/
def kneeCurve (c : CurveState) (x k : ℝ) : ℝ :=
  if x < c.linearThreshold then x
  else c.linearThreshold + (1 - Real.exp (-k * (x - c.linearThreshold))) / k

/-- saturate (source lines 134-149): knee curve below the knee threshold,
constant-ratio dB-domain extrapolation above it. -/
def saturate (c : CurveState) (x k : ℝ) : ℝ :=
  if x < c.kneeThreshold then kneeCurve c x k
  else
    decibelsToLinear (c.ykneeThresholdDb + c.slope * (linearToDecibels x - c.kneeThresholdDb))

/-- slopeAt (source lines 154-170): finite-difference dB-domain slope. -/
def slopeAt (c : CurveState) (x k : ℝ) : ℝ :=
  if x < c.linearThreshold then 1
  else
    let x2 := x * 1.001
    let xDb := linearToDecibels x
    let x2Db := linearToDecibels x2
    let yDb := linearToDecibels (kneeCurve c x k)
    let y2Db := linearToDecibels (kneeCurve c x2 k)
    (y2Db - yDb) / (x2Db - xDb)

/-- Bisection bracket of kAtSlope: the locals minK, maxK, k of source
lines 178-180. -/
structure KSearch where
  minK : ℝ
  maxK : ℝ
  k : ℝ

/-- One iteration of the kAtSlope loop body (source lines 182-197). -/
def kAtSlopeStep (c : CurveState) (desiredSlope x : ℝ) (s : KSearch) : KSearch :=
  let slope := slopeAt c x s.k
  let s1 := if slope < desiredSlope then { s with maxK := s.k } else { s with minK := s.k }
  { s1 with k := Real.sqrt (s1.minK * s1.maxK) }

/-- State of the kAtSlope loop after n iterations, starting from
minK = 0.1, maxK = 10000, k = 5 (source lines 178-180). -/
def kAtSlopeIter (c : CurveState) (desiredSlope x : ℝ) : Nat → KSearch
  | 0 => { minK := 0.1, maxK := 10000, k := 5 }
  | n + 1 => kAtSlopeStep c desiredSlope x (kAtSlopeIter c desiredSlope x n)

/-- kAtSlope (source lines 172-200): exactly 15 bisection iterations, no
convergence check, returning the final k. -/
def kAtSlope (c : CurveState) (desiredSlope : ℝ) : ℝ :=
  let xDb := c.dbThreshold + c.dbKnee
  let x := decibelsToLinear xDb
  (kAtSlopeIter c desiredSlope x 15).k

/-- Recompute branch of updateStaticCurveParameters (source lines 205-221),
with the member writes sequenced as in the source: the threshold members are
set before kAtSlope runs, and ykneeThresholdDb is computed from the already
updated members. -/
def computeStaticCurveParameters (c : CurveState) (dbThreshold dbKnee ratio : ℝ) :
    CurveState :=
  let c1 : CurveState :=
    { c with dbThreshold := dbThreshold,
             linearThreshold := decibelsToLinear dbThreshold,
             dbKnee := dbKnee,
             ratio := ratio,
             slope := 1 / ratio }
  let k := kAtSlope c1 (1 / ratio)
  let kneeThresholdDb := dbThreshold + dbKnee
  let kneeThreshold := decibelsToLinear kneeThresholdDb
  let c2 : CurveState := { c1 with kneeThresholdDb := kneeThresholdDb, kneeThreshold := kneeThreshold }
  { c2 with ykneeThresholdDb := linearToDecibels (kneeCurve c2 kneeThreshold k), K := k }

/-- updateStaticCurveParameters (source lines 202-225): recompute the cached
curve members when the parameter triple differs from the cached one,
otherwise return the cached m_K with the state untouched. -/
def updateStaticCurveParameters (c : CurveState) (dbThreshold dbKnee ratio : ℝ) :
    CurveState × ℝ :=
  if dbThreshold ≠ c.dbThreshold ∨ dbKnee ≠ c.dbKnee ∨ ratio ≠ c.ratio then
    let c2 := computeStaticCurveParameters c dbThreshold dbKnee ratio
    (c2, c2.K)
  else (c, c.K)

/-- Planar audio storage: a sample per (channel, frame) pair. -/
def Buf : Type := Nat → Nat → ℝ

/-- Point update of planar storage at one (channel, frame) position. -/
def updBuf (b : Buf) (ch fr : Nat) (v : ℝ) : Buf :=
  fun c f => if c = ch ∧ f = fr then v else b c f

/-- Mutable members of CompressorNode outside the cached curve. -/
structure CompState where
  curve : CurveState
  lastPreDelayFrames : Nat
  preDelayReadIndex : Nat
  preDelayWriteIndex : Nat
  preDelayBuffer : Buf
  detectorAverage : ℝ
  compressorGain : ℝ
  meteringGain : ℝ
  maxAttackCompressionDiffDb : ℝ
  meteringReleaseK : ℝ

/-- reset (source lines 91-104): zero the envelope state and the pre-delay
buffer, restore the indices for the default delay.  Note that
m_lastPreDelayFrames is not touched. -/
def reset (s : CompState) : CompState :=
  { s with detectorAverage := 0, compressorGain := 1, meteringGain := 1,
           preDelayBuffer := fun _ _ => 0,
           preDelayReadIndex := 0,
           preDelayWriteIndex := DefaultPreDelayFrames,
           maxAttackCompressionDiffDb := -1 }

/-- initialize (source lines 67-89): default delay, sentinel curve members,
zeroed storage, reset, and the metering release constant for the node
sample rate. -/
def initializeState (sampleRate : ℝ) : CompState :=
  reset
    { curve := initCurve,
      lastPreDelayFrames := DefaultPreDelayFrames,
      preDelayReadIndex := 0,
      preDelayWriteIndex := DefaultPreDelayFrames,
      preDelayBuffer := fun _ _ => 0,
      detectorAverage := 0, compressorGain := 1, meteringGain := 1,
      maxAttackCompressionDiffDb := -1,
      meteringReleaseK := discreteTimeConstantForSampleRate 0.325 sampleRate }

/-- Body of setPreDelayTime after the float-to-unsigned conversion of the
requested frame count (source lines 110-119). -/
def setPreDelayFrames (s : CompState) (requestedFrames : Nat) : CompState :=
  let preDelayFrames :=
    if requestedFrames > MaxPreDelayFrames - 1 then MaxPreDelayFrames - 1
    else requestedFrames
  if s.lastPreDelayFrames ≠ preDelayFrames then
    { s with lastPreDelayFrames := preDelayFrames,
             preDelayBuffer := fun _ _ => 0,
             preDelayReadIndex := 0,
             preDelayWriteIndex := preDelayFrames }
  else s

/-- setPreDelayTime (source lines 107-120): the conversion
`unsigned preDelayFrames = preDelayTime * getSampleRate()` truncates the
nonnegative product toward zero, which is the floor. -/
def setPreDelayTime (s : CompState) (preDelayTime sampleRate : ℝ) : CompState :=
  setPreDelayFrames s (Int.toNat ⌊preDelayTime * sampleRate⌋)

/-- Smoothed parameter values as evaluated once per block
(source lines 238-242). -/
structure Params where
  dbKnee : ℝ
  ratio : ℝ
  attackTime : ℝ
  releaseTime : ℝ
  dbThreshold : ℝ

/-- Per-block constants of process() computed before the division loop
(source lines 244-298). -/
structure PerBlock where
  numberOfChannels : Nat
  curve : CurveState
  k : ℝ
  satReleaseFrames : ℝ
  masterLinearGain : ℝ
  dryMix : ℝ
  wetMix : ℝ
  attackFrames : ℝ
  kA : ℝ
  kB : ℝ
  kC : ℝ
  kD : ℝ
  kE : ℝ

/-- Context of one inner-loop run: the per-block constants together with the
per-sub-block envelope decision (source lines 316-382). -/
structure SubCtx where
  numberOfChannels : Nat
  curve : CurveState
  k : ℝ
  satReleaseFrames : ℝ
  masterLinearGain : ℝ
  dryMix : ℝ
  wetMix : ℝ
  meteringReleaseK : ℝ
  envelopeRate : ℝ
  scaledDesiredGain : ℝ

/-- Locals of the inner sample loop (source lines 388-392) together with the
storage they touch and the frame cursor. -/
structure InnerState where
  preDelayReadIndex : Nat
  preDelayWriteIndex : Nat
  detectorAverage : ℝ
  compressorGain : ℝ
  meteringGain : ℝ
  delayBuffer : Buf
  buffer : Buf
  frameIndex : Nat

/-- Channel loop writing the undelayed input into the delay line and taking
the peak absolute sample across channels (source lines 399-410). -/
def writeAndPeak (numCh : Nat) (buffer : Buf) (frameIndex writeIdx : Nat)
    (delayBuffer : Buf) : Buf × ℝ :=
  (List.range numCh).foldl
    (fun acc i =>
      let undelayedSource := buffer i frameIndex
      let db := updBuf acc.1 i writeIdx undelayedSource
      let absU := if undelayedSource > 0 then undelayedSource else -undelayedSource
      (db, if acc.2 < absU then absU else acc.2))
    (delayBuffer, 0)

/-- Channel loop applying the final gain to the delayed samples
(source lines 468-471). -/
def applyGain (numCh : Nat) (delayBuffer : Buf) (readIdx : Nat) (totalGain : ℝ)
    (buffer : Buf) (frameIndex : Nat) : Buf :=
  (List.range numCh).foldl
    (fun b i => updBuf b i frameIndex (delayBuffer i readIdx * totalGain)) buffer

/-- Metering update for one sample (source lines 461-465): snap down to
dbRealGain, otherwise relax toward dbRealGain at rate meteringReleaseK. -/
def meteringStep (meteringReleaseK meteringGain postWarpCompressorGain : ℝ) : ℝ :=
  let dbRealGain := 20 * Real.logb 10 postWarpCompressorGain
  if dbRealGain < meteringGain then dbRealGain
  else meteringGain + (dbRealGain - meteringGain) * meteringReleaseK

/-- Shaped-power detector update for one sample (source lines 421-442):
shaping curve, attenuation with the 1e-4 floor, adaptive release rate,
instant attack, and the clamp to at most 1.  The NaN/Inf fail-safe that
follows (source lines 439-442) is the identity over the reals and is
treated in the tagged-value model at the end of the file. -/
def detectorUpdate (curve : CurveState) (k satReleaseFrames detectorAverage absInput : ℝ) : ℝ :=
  let shapedInput := saturate curve absInput k
  let attenuation := if absInput ≤ 0.0001 then 1 else shapedInput / absInput
  let attenuationDb := max 2 (-(linearToDecibels attenuation))
  let dbPerFrame := attenuationDb / satReleaseFrames
  let satReleaseRate := decibelsToLinear dbPerFrame - 1
  let isRelease := attenuation > detectorAverage
  let rate := if isRelease then satReleaseRate else 1
  min 1 (detectorAverage + (attenuation - detectorAverage) * rate)

/-- Per-sample gain integration (source lines 444-452): attack semantics
when envelopeRate < 1, release semantics (multiply, clamp at 1) otherwise. -/
def gainUpdate (envelopeRate scaledDesiredGain compressorGain : ℝ) : ℝ :=
  if envelopeRate < 1 then
    compressorGain + (scaledDesiredGain - compressorGain) * envelopeRate
  else
    min 1 (compressorGain * envelopeRate)

/-- Body of the inner sample loop (source lines 395-476). -/
def innerLoopBody (ctx : SubCtx) (st : InnerState) : InnerState :=
  let wp := writeAndPeak ctx.numberOfChannels st.buffer st.frameIndex
    st.preDelayWriteIndex st.delayBuffer
  let delayBuffer := wp.1
  let compressorInput := wp.2
  let scaledInput := compressorInput
  let absInput := if scaledInput > 0 then scaledInput else -scaledInput
  let detectorAverage :=
    detectorUpdate ctx.curve ctx.k ctx.satReleaseFrames st.detectorAverage absInput
  let compressorGain := gainUpdate ctx.envelopeRate ctx.scaledDesiredGain st.compressorGain
  let postWarpCompressorGain := Real.sin (Real.pi / 2 * compressorGain)
  let totalGain := ctx.dryMix + ctx.wetMix * ctx.masterLinearGain * postWarpCompressorGain
  let meteringGain := meteringStep ctx.meteringReleaseK st.meteringGain postWarpCompressorGain
  let buffer := applyGain ctx.numberOfChannels delayBuffer st.preDelayReadIndex
    totalGain st.buffer st.frameIndex
  { preDelayReadIndex := (st.preDelayReadIndex + 1) % MaxPreDelayFrames,
    preDelayWriteIndex := (st.preDelayWriteIndex + 1) % MaxPreDelayFrames,
    detectorAverage := detectorAverage,
    compressorGain := compressorGain,
    meteringGain := meteringGain,
    delayBuffer := delayBuffer,
    buffer := buffer,
    frameIndex := st.frameIndex + 1 }

/-- n iterations of the inner sample loop. -/
def innerIter (ctx : SubCtx) : Nat → InnerState → InnerState
  | 0, st => st
  | n + 1, st => innerIter ctx n (innerLoopBody ctx st)

/-- State threaded through the division loop of process(). -/
structure ProcState where
  comp : CompState
  buffer : Buf
  frameIndex : Nat

/-- Adaptive release envelope rate (source lines 345-363): clamp the dB
difference into [-12, 0], rescale to [0, 3], evaluate the quartic release
curve and convert 5 dB per releaseFrames frames to a linear per-sample
rate. -/
def releaseEnvelopeRate (pb : PerBlock) (compressionDiffDb : ℝ) : ℝ :=
  let x0 := compressionDiffDb
  let x1 := max (-12) x0
  let x2 := min 0 x1
  let x := 0.25 * (x2 + 12)
  let xp2 := x * x
  let xp3 := xp2 * x
  let xp4 := xp2 * xp2
  let releaseFrames := pb.kA + pb.kB * x + pb.kC * xp2 + pb.kD * xp3 + pb.kE * xp4
  let spacingDb : ℝ := 5
  let dbPerFrame := spacingDb / releaseFrames
  decibelsToLinear dbPerFrame

/-- Attack envelope rate (source lines 378-381), taking the already floored
effective dB difference max(0.5, maxAttackCompressionDiffDb). -/
def attackEnvelopeRate (attackFrames effAttenDiffDb : ℝ) : ℝ :=
  let x := 0.25 / effAttenDiffDb
  1 - x ^ (1 / attackFrames)

/-- Once-per-sub-block envelope decision (source lines 310-382), returning
the new m_maxAttackCompressionDiffDb, the envelopeRate and the
scaledDesiredGain.  The NaN/Inf fixes of the source are the identity over
the reals. -/
def subBlockDecision (pb : PerBlock) (s : CompState) : ℝ × ℝ × ℝ :=
  let desiredGain := s.detectorAverage
  let piOverTwoFloat := Real.pi / 2
  let scaledDesiredGain := Real.arcsin desiredGain / piOverTwoFloat
  let isReleasing := scaledDesiredGain > s.compressorGain
  let compressionDiffDb := linearToDecibels (s.compressorGain / scaledDesiredGain)
  if isReleasing then
    (-1, releaseEnvelopeRate pb compressionDiffDb, scaledDesiredGain)
  else
    let maxA :=
      if s.maxAttackCompressionDiffDb = -1 ∨ s.maxAttackCompressionDiffDb < compressionDiffDb
      then compressionDiffDb else s.maxAttackCompressionDiffDb
    (maxA, attackEnvelopeRate pb.attackFrames (max 0.5 maxA), scaledDesiredGain)

/-- Inner-loop context for one sub-block, from the per-block constants and
the sub-block decision. -/
def subCtx (pb : PerBlock) (s : CompState) : SubCtx :=
  let dec := subBlockDecision pb s
  { numberOfChannels := pb.numberOfChannels, curve := pb.curve, k := pb.k,
    satReleaseFrames := pb.satReleaseFrames,
    masterLinearGain := pb.masterLinearGain,
    dryMix := pb.dryMix, wetMix := pb.wetMix,
    meteringReleaseK := s.meteringReleaseK,
    envelopeRate := dec.2.1, scaledDesiredGain := dec.2.2 }

/-- Loading of the inner-loop locals from the members
(source lines 389-392). -/
def innerStart (s : CompState) (buffer : Buf) (frameIndex : Nat) : InnerState :=
  { preDelayReadIndex := s.preDelayReadIndex,
    preDelayWriteIndex := s.preDelayWriteIndex,
    detectorAverage := s.detectorAverage,
    compressorGain := s.compressorGain,
    meteringGain := s.meteringGain,
    delayBuffer := s.preDelayBuffer,
    buffer := buffer,
    frameIndex := frameIndex }

/-- One iteration of the division loop (source lines 305-484): the
sub-block envelope decision followed by 32 inner-loop samples and the
write-back of the loop locals (source lines 478-482). -/
def subBlockStep (pb : PerBlock) (ps : ProcState) : ProcState :=
  let s := ps.comp
  let dec := subBlockDecision pb s
  let fin := innerIter (subCtx pb s) 32 (innerStart s ps.buffer ps.frameIndex)
  { comp :=
      { s with maxAttackCompressionDiffDb := dec.1,
               preDelayReadIndex := fin.preDelayReadIndex,
               preDelayWriteIndex := fin.preDelayWriteIndex,
               detectorAverage := fin.detectorAverage,
               compressorGain := fin.compressorGain,
               meteringGain := fin.meteringGain,
               preDelayBuffer := fin.delayBuffer },
    buffer := fin.buffer,
    frameIndex := fin.frameIndex }

/-- n iterations of the division loop. -/
def subBlocksIter (pb : PerBlock) : Nat → ProcState → ProcState
  | 0, ps => ps
  | n + 1, ps => subBlocksIter pb n (subBlockStep pb ps)

/-- process (source lines 227-485): parameter evaluation, curve refresh,
makeup gain, attack and release coefficients, pre-delay refresh, then
framesToProcess / 32 sub-blocks.  The buffer is numberOfChannels planar
channels of framesToProcess samples each; process returns the new node
state and the mutated buffer. -/
def process (s : CompState) (buffer : Buf) (numberOfChannels framesToProcess : Nat)
    (p : Params) (sampleRate : ℝ) : CompState × Buf :=
  let dbKnee := p.dbKnee
  let ratio := p.ratio
  let releaseTime := p.releaseTime
  let dbThreshold := p.dbThreshold
  let preDelayTime : ℝ := 0.006
  let dbPostGain : ℝ := 0
  let effectBlend : ℝ := 1
  let releaseZone1 : ℝ := 0.09
  let releaseZone2 : ℝ := 0.16
  let releaseZone3 : ℝ := 0.42
  let releaseZone4 : ℝ := 0.98
  let dryMix := 1 - effectBlend
  let wetMix := effectBlend
  let upd := updateStaticCurveParameters s.curve dbThreshold dbKnee ratio
  let s1 : CompState := { s with curve := upd.1 }
  let k := upd.2
  let fullRangeGain := saturate upd.1 1 k
  let fullRangeMakeupGain := (1 / fullRangeGain) ^ (0.6 : ℝ)
  let masterLinearGain := decibelsToLinear dbPostGain * fullRangeMakeupGain
  let attackTime := max 0.001 p.attackTime
  let attackFrames := attackTime * sampleRate
  let releaseFrames := sampleRate * releaseTime
  let satReleaseFrames := 0.0025 * sampleRate
  let y1 := releaseFrames * releaseZone1
  let y2 := releaseFrames * releaseZone2
  let y3 := releaseFrames * releaseZone3
  let y4 := releaseFrames * releaseZone4
  let kA := 0.9999999999999998 * y1 + 1.8432219684323923e-16 * y2
    - 1.9373394351676423e-16 * y3 + 8.824516011816245e-18 * y4
  let kB := -1.5788320352845888 * y1 + 2.3305837032074286 * y2
    - 0.9141194204840429 * y3 + 0.1623677525612032 * y4
  let kC := 0.5334142869106424 * y1 - 1.272736789213631 * y2
    + 0.9258856042207512 * y3 - 0.18656310191776226 * y4
  let kD := 0.08783463138207234 * y1 - 0.1694162967925622 * y2
    + 0.08588057951595272 * y3 - 0.00429891410546283 * y4
  let kE := -0.042416883008123074 * y1 + 0.1115693827987602 * y2
    - 0.09764676325265872 * y3 + 0.028494263462021576 * y4
  let s2 := setPreDelayTime s1 preDelayTime sampleRate
  let nDivisions := framesToProcess / 32
  let pb : PerBlock :=
    { numberOfChannels := numberOfChannels, curve := upd.1, k := k,
      satReleaseFrames := satReleaseFrames,
      masterLinearGain := masterLinearGain,
      dryMix := dryMix, wetMix := wetMix, attackFrames := attackFrames,
      kA := kA, kB := kB, kC := kC, kD := kD, kE := kE }
  let res := subBlocksIter pb nDivisions
    { comp := s2, buffer := buffer, frameIndex := 0 }
  (res.comp, res.buffer)

/-- One block call per list element, threading the node state; each call
brings its own input buffer, channel count, frame count and evaluated
parameter values. -/
def processCalls (sampleRate : ℝ) : CompState → List (Buf × Nat × Nat × Params) → CompState
  | s, [] => s
  | s, c :: rest =>
      processCalls sampleRate (process s c.1 c.2.1 c.2.2.1 c.2.2.2 sampleRate).1 rest

/-- Modelled from the spec, section 4.5: the claimed exponential relaxation
of meteringGain toward 0 at rate meteringReleaseK in the non-snap branch,
for comparison with the meteringStep of the source. -/
def meteringStepTowardZero (meteringReleaseK meteringGain postWarpCompressorGain : ℝ) : ℝ :=
  let dbRealGain := 20 * Real.logb 10 postWarpCompressorGain
  if dbRealGain < meteringGain then dbRealGain
  else meteringGain + (0 - meteringGain) * meteringReleaseK

/-- Look-ahead delay-line invariant of the spec:
writeIndex = (readIndex + delayFrames) mod capacity with the configured
delay m_lastPreDelayFrames and capacity 1024. -/
def preDelayInv (s : CompState) : Prop :=
  s.preDelayWriteIndex = (s.preDelayReadIndex + s.lastPreDelayFrames) % MaxPreDelayFrames

/-- Interval invariant of the envelope state: detectorAverage and
compressorGain both within [0, 1]. -/
def Inv01 (s : CompState) : Prop :=
  0 ≤ s.detectorAverage ∧ s.detectorAverage ≤ 1 ∧
  0 ≤ s.compressorGain ∧ s.compressorGain ≤ 1

/-- Wellformedness of the cached curve members as established by any
genuine parameter update: a positive linear threshold and a positive
steepness. -/
def CurveOK (c : CurveState) : Prop :=
  0 < c.linearThreshold ∧ 0 < c.K

/-- Wellformedness of the per-block constants as computed by process()
under a positive sample rate and a wellformed curve. -/
def PerBlockOK (pb : PerBlock) : Prop :=
  0 < pb.k ∧ 0 < pb.curve.linearThreshold ∧ 0 < pb.satReleaseFrames ∧ 0 < pb.attackFrames

/-- Buffers agreeing on every frame below a bound, on all channels. -/
def agreeBelow (bound : Nat) (b1 b2 : Buf) : Prop :=
  ∀ ch f, f < bound → b1 ch f = b2 ch f

/-- Two inner-loop states agreeing on every component except the audio
buffer. -/
def NonBufEq (st1 st2 : InnerState) : Prop :=
  st1.preDelayReadIndex = st2.preDelayReadIndex ∧
  st1.preDelayWriteIndex = st2.preDelayWriteIndex ∧
  st1.detectorAverage = st2.detectorAverage ∧
  st1.compressorGain = st2.compressorGain ∧
  st1.meteringGain = st2.meteringGain ∧
  st1.delayBuffer = st2.delayBuffer ∧
  st1.frameIndex = st2.frameIndex

/-- Silent input block. -/
def zeroBuf : Buf := fun _ _ => 0

/-- Construction-time parameter defaults (source lines 59-63). -/
def defaultParams : Params :=
  { dbKnee := 30, ratio := 12, attackTime := 0.003, releaseTime := 0.25, dbThreshold := -24 }

/-- Concrete wellformed curve members for witnesses. -/
def demoCurve : CurveState :=
  { ratio := 1, slope := 1, linearThreshold := 1, dbThreshold := 0, dbKnee := 0,
    kneeThreshold := 1, kneeThresholdDb := 0, ykneeThresholdDb := 0, K := 1 }

/-- Concrete node state for witnesses: the initialized node with a
wellformed curve installed. -/
def demoState : CompState := { initializeState 1 with curve := demoCurve }

/-! Tagged-value model of the NaN/Inf fail-safe.  The reals cannot express
non-finite floats, so the detector fail-safe path is modelled over
`Option ℝ`: `some x` is a finite value x and `none` is a non-finite float
(NaN or Inf; the source treats both the same, sending them to 1). -/

/-- Tagged float: finite real or non-finite. -/
def FloatVal : Type := Option ℝ

/-- Addition with non-finite propagation. -/
def vAdd : FloatVal → FloatVal → FloatVal
  | some a, some b => some (a + b)
  | _, _ => none

/-- Subtraction with non-finite propagation. -/
def vSub : FloatVal → FloatVal → FloatVal
  | some a, some b => some (a - b)
  | _, _ => none

/-- Multiplication with non-finite propagation. -/
def vMul : FloatVal → FloatVal → FloatVal
  | some a, some b => some (a * b)
  | _, _ => none

/-- std::min(1.0f, v) of source line 436; a non-finite operand is kept
non-finite here (the conservative reading), which the fail-safe right
after makes irrelevant. -/
def vMin1 : FloatVal → FloatVal
  | some a => some (min 1 a)
  | none => none

/-- The gremlin fix of source lines 311-314 and 439-442: a NaN or Inf
value is replaced by 1, a finite value is kept. -/
def fixGremlins : FloatVal → FloatVal
  | none => some 1
  | some a => some a

/-- Detector store of one inner-loop sample in the tagged model
(source lines 435-442): the raw update, the clamp to at most 1, then the
gremlin fix before the value is stored and used downstream. -/
def detectorUpdateTagged (detectorAverage attenuation rate : FloatVal) : FloatVal :=
  fixGremlins (vMin1 (vAdd detectorAverage (vMul (vSub attenuation detectorAverage) rate)))

/-- Sub-block start in the tagged model (source lines 310-316): the
gremlin fix applied to m_detectorAverage before it becomes desiredGain. -/
def desiredGainTagged (detectorAverage : FloatVal) : FloatVal :=
  fixGremlins detectorAverage

/-! Helper lemmas about the bisection bracket of kAtSlope. -/

lemma sqrt_mul_mem {a b : ℝ} (ha : 0 < a) (hab : a ≤ b) :
    a ≤ Real.sqrt (a * b) ∧ Real.sqrt (a * b) ≤ b := by
  constructor
  · calc a = Real.sqrt (a * a) := (Real.sqrt_mul_self ha.le).symm
      _ ≤ Real.sqrt (a * b) := Real.sqrt_le_sqrt (by nlinarith)
  · calc Real.sqrt (a * b) ≤ Real.sqrt (b * b) := Real.sqrt_le_sqrt (by nlinarith)
      _ = b := Real.sqrt_mul_self (ha.le.trans hab)

lemma kAtSlopeStep_k_eq (c : CurveState) (d x : ℝ) (s : KSearch) :
    (kAtSlopeStep c d x s).k =
      Real.sqrt ((kAtSlopeStep c d x s).minK * (kAtSlopeStep c d x s).maxK) := by
  unfold kAtSlopeStep
  by_cases hc : slopeAt c x s.k < d
  · simp only [if_pos hc]
  · simp only [if_neg hc]

lemma kAtSlopeStep_inv (c : CurveState) (d x : ℝ) (s : KSearch)
    (h1 : 0.1 ≤ s.minK) (h2 : s.minK ≤ s.maxK) (h3 : s.maxK ≤ 10000)
    (h4 : s.minK ≤ s.k) (h5 : s.k ≤ s.maxK) :
    0.1 ≤ (kAtSlopeStep c d x s).minK ∧
    (kAtSlopeStep c d x s).minK ≤ (kAtSlopeStep c d x s).maxK ∧
    (kAtSlopeStep c d x s).maxK ≤ 10000 ∧
    (kAtSlopeStep c d x s).minK ≤ (kAtSlopeStep c d x s).k ∧
    (kAtSlopeStep c d x s).k ≤ (kAtSlopeStep c d x s).maxK := by
  unfold kAtSlopeStep
  by_cases hc : slopeAt c x s.k < d
  · simp only [if_pos hc]
    have hm := sqrt_mul_mem (lt_of_lt_of_le (by norm_num) h1) h4
    exact ⟨h1, h4, h5.trans h3, hm.1, hm.2⟩
  · simp only [if_neg hc]
    have hm := sqrt_mul_mem (lt_of_lt_of_le (by norm_num) (h1.trans h4)) h5
    exact ⟨h1.trans h4, h5, h3, hm.1, hm.2⟩

lemma kAtSlopeIter_inv (c : CurveState) (d x : ℝ) :
    ∀ n : Nat,
      0.1 ≤ (kAtSlopeIter c d x n).minK ∧
      (kAtSlopeIter c d x n).minK ≤ (kAtSlopeIter c d x n).maxK ∧
      (kAtSlopeIter c d x n).maxK ≤ 10000 ∧
      (kAtSlopeIter c d x n).minK ≤ (kAtSlopeIter c d x n).k ∧
      (kAtSlopeIter c d x n).k ≤ (kAtSlopeIter c d x n).maxK := by
  intro n
  induction n with
  | zero =>
      refine ⟨by norm_num [kAtSlopeIter], by norm_num [kAtSlopeIter],
        by norm_num [kAtSlopeIter], by norm_num [kAtSlopeIter], by norm_num [kAtSlopeIter]⟩
  | succ n ih =>
      obtain ⟨h1, h2, h3, h4, h5⟩ := ih
      exact kAtSlopeStep_inv c d x _ h1 h2 h3 h4 h5

/-- C7: for every desiredSlope, kAtSlope terminates after exactly 15
geometric-mean bisection iterations with no convergence check (it is
definitionally the 15th iterate of the loop body), the bracket
[minK, maxK] stays inside the initial interval [0.1, 10000] at every
iteration, and the result is the geometric mean of the final bracket, so
it always lies in [0.1, 10000]. -/
theorem kAtSlope_fifteen_iterations_bounds (c : CurveState) (desiredSlope : ℝ) :
    kAtSlope c desiredSlope =
      Real.sqrt
        ((kAtSlopeIter c desiredSlope (decibelsToLinear (c.dbThreshold + c.dbKnee)) 15).minK *
         (kAtSlopeIter c desiredSlope (decibelsToLinear (c.dbThreshold + c.dbKnee)) 15).maxK) ∧
    (∀ n : Nat,
      0.1 ≤ (kAtSlopeIter c desiredSlope (decibelsToLinear (c.dbThreshold + c.dbKnee)) n).minK ∧
      (kAtSlopeIter c desiredSlope (decibelsToLinear (c.dbThreshold + c.dbKnee)) n).minK ≤
        (kAtSlopeIter c desiredSlope (decibelsToLinear (c.dbThreshold + c.dbKnee)) n).maxK ∧
      (kAtSlopeIter c desiredSlope (decibelsToLinear (c.dbThreshold + c.dbKnee)) n).maxK ≤ 10000) ∧
    0.1 ≤ kAtSlope c desiredSlope ∧ kAtSlope c desiredSlope ≤ 10000 := by
  have hiter := kAtSlopeIter_inv c desiredSlope (decibelsToLinear (c.dbThreshold + c.dbKnee))
  refine ⟨?_, ?_, ?_, ?_⟩
  · show (kAtSlopeIter c desiredSlope (decibelsToLinear (c.dbThreshold + c.dbKnee)) 15).k = _
    rw [show kAtSlopeIter c desiredSlope (decibelsToLinear (c.dbThreshold + c.dbKnee)) 15 =
      kAtSlopeStep c desiredSlope (decibelsToLinear (c.dbThreshold + c.dbKnee))
        (kAtSlopeIter c desiredSlope (decibelsToLinear (c.dbThreshold + c.dbKnee)) 14) from rfl]
    exact kAtSlopeStep_k_eq c desiredSlope _ _
  · intro n
    obtain ⟨h1, h2, h3, _, _⟩ := hiter n
    exact ⟨h1, h2, h3⟩
  · obtain ⟨h1, _, _, h4, _⟩ := hiter 15
    exact h1.trans h4
  · obtain ⟨_, _, h3, _, h5⟩ := hiter 15
    exact h5.trans h3

/-! Caching behavior of updateStaticCurveParameters. -/

lemma computeStaticCurveParameters_triple (c : CurveState) (t kd r : ℝ) :
    (computeStaticCurveParameters c t kd r).dbThreshold = t ∧
    (computeStaticCurveParameters c t kd r).dbKnee = kd ∧
    (computeStaticCurveParameters c t kd r).ratio = r :=
  ⟨rfl, rfl, rfl⟩

lemma updateStatic_eq_cached (c : CurveState) (t kd r : ℝ)
    (h1 : t = c.dbThreshold) (h2 : kd = c.dbKnee) (h3 : r = c.ratio) :
    updateStaticCurveParameters c t kd r = (c, c.K) := by
  unfold updateStaticCurveParameters
  rw [if_neg (by push_neg; exact ⟨h1, h2, h3⟩)]

/-- C6: updateStaticCurveParameters recomputes the cached curve members
exactly when the input triple differs from the cached triple.  When the
triple is unchanged the state is returned untouched together with the
cached m_K, so the 15-iteration kAtSlope solve inside
computeStaticCurveParameters does not run; when it differs the result is
the full recompute.  The recompute caches the new triple, so an immediate
second call with the same triple is always the cached no-op. -/
theorem updateStaticCurveParameters_cache (c : CurveState) (t kd r : ℝ) :
    ((t = c.dbThreshold ∧ kd = c.dbKnee ∧ r = c.ratio) →
      updateStaticCurveParameters c t kd r = (c, c.K)) ∧
    (¬(t = c.dbThreshold ∧ kd = c.dbKnee ∧ r = c.ratio) →
      updateStaticCurveParameters c t kd r =
        (computeStaticCurveParameters c t kd r,
         (computeStaticCurveParameters c t kd r).K)) ∧
    updateStaticCurveParameters (updateStaticCurveParameters c t kd r).1 t kd r =
      ((updateStaticCurveParameters c t kd r).1,
       (updateStaticCurveParameters c t kd r).1.K) := by
  refine ⟨?_, ?_, ?_⟩
  · intro h
    exact updateStatic_eq_cached c t kd r h.1 h.2.1 h.2.2
  · intro h
    have hcond : t ≠ c.dbThreshold ∨ kd ≠ c.dbKnee ∨ r ≠ c.ratio := by
      by_contra hh
      push_neg at hh
      exact h ⟨hh.1, hh.2.1, hh.2.2⟩
    unfold updateStaticCurveParameters
    rw [if_pos hcond]
  · by_cases hcond : t ≠ c.dbThreshold ∨ kd ≠ c.dbKnee ∨ r ≠ c.ratio
    · have hres : (updateStaticCurveParameters c t kd r).1 =
        computeStaticCurveParameters c t kd r := by
        unfold updateStaticCurveParameters
        rw [if_pos hcond]
      rw [hres]
      obtain ⟨e1, e2, e3⟩ := computeStaticCurveParameters_triple c t kd r
      exact updateStatic_eq_cached _ t kd r e1.symm e2.symm e3.symm
    · push_neg at hcond
      have hres : (updateStaticCurveParameters c t kd r).1 = c := by
        rw [updateStatic_eq_cached c t kd r hcond.1 hcond.2.1 hcond.2.2]
      rw [hres]
      exact updateStatic_eq_cached c t kd r hcond.1 hcond.2.1 hcond.2.2

/-- Witness for C6 at a concrete cached state: calling with the cached
triple of initCurve returns the state and its cached K unchanged. -/
theorem updateStaticCurveParameters_cache_witness :
    updateStaticCurveParameters initCurve (-1) (-1) (-1) = (initCurve, initCurve.K) :=
  (updateStaticCurveParameters_cache initCurve (-1) (-1) (-1)).1 ⟨rfl, rfl, rfl⟩

/-! The static compression curve is the identity below the threshold. -/

lemma decibelsToLinear_mono {a b : ℝ} (h : a ≤ b) :
    decibelsToLinear a ≤ decibelsToLinear b :=
  Real.rpow_le_rpow_of_exponent_le (by norm_num) (by linarith)

/-- C4: with a nonnegative knee width, the computed linear threshold is at
most the knee threshold, so the full compression curve saturate is the
identity on inputs strictly between 0 and the linear threshold, for any
positive steepness k. -/
theorem saturate_identity_below_threshold (c : CurveState) (t kd r k x : ℝ)
    (hkd : 0 ≤ kd) (hk : 0 < k) (hx : 0 < x)
    (hlt : x < (computeStaticCurveParameters c t kd r).linearThreshold) :
    saturate (computeStaticCurveParameters c t kd r) x k = x := by
  have h1 : (computeStaticCurveParameters c t kd r).linearThreshold = decibelsToLinear t := rfl
  have h2 : (computeStaticCurveParameters c t kd r).kneeThreshold =
      decibelsToLinear (t + kd) := rfl
  have hle : decibelsToLinear t ≤ decibelsToLinear (t + kd) :=
    decibelsToLinear_mono (by linarith)
  unfold saturate
  rw [if_pos (by rw [h2]; exact lt_of_lt_of_le (h1 ▸ hlt) hle)]
  unfold kneeCurve
  rw [if_pos hlt]

/-- Witness for C4 at threshold 0 dB, knee 0 dB, k = 1, x = 1/2. -/
theorem saturate_identity_below_threshold_witness :
    0 < (1/2 : ℝ) ∧
    saturate (computeStaticCurveParameters initCurve 0 0 1) (1/2) 1 = 1/2 := by
  have hlt1 : (computeStaticCurveParameters initCurve 0 0 1).linearThreshold = 1 := by
    show decibelsToLinear 0 = 1
    unfold decibelsToLinear
    rw [mul_zero, Real.rpow_zero]
  exact ⟨by norm_num,
    saturate_identity_below_threshold initCurve 0 0 1 1 (1/2) le_rfl (by norm_num)
      (by norm_num) (by rw [hlt1]; norm_num)⟩

/-! Metering update. -/

lemma logb_ten_tenth : Real.logb 10 (1/10 : ℝ) = -1 := by
  rw [one_div, Real.logb_inv, Real.logb_self_eq_one (by norm_num)]

/-- Counterexample for C8: the non-snap branch of the source metering
update relaxes toward dbRealGain, not toward 0.  At meteringGain = -30,
postWarpGain = 1/10 (dbRealGain = -20) and rate 1/2, the source update
gives -25 while a relaxation toward 0 would give -15. -/
theorem meteringStep_not_toward_zero :
    meteringStep (1/2) (-30) (1/10) ≠ meteringStepTowardZero (1/2) (-30) (1/10) := by
  unfold meteringStep meteringStepTowardZero
  rw [logb_ten_tenth]
  rw [if_neg (by norm_num), if_neg (by norm_num)]
  norm_num

/-- C8 amended: on every per-sample metering update, with
dbRealGain = 20 * log10(postWarpGain): below the current meteringGain the
meter snaps instantly to dbRealGain, otherwise it relaxes exponentially
toward dbRealGain at rate meteringReleaseK = 1 - e^(-1/(sampleRate*0.325)),
the constant initialize() computes for the node sample rate. -/
theorem meteringStep_snap_or_relax (sampleRate meteringGain postWarpGain : ℝ) :
    (initializeState sampleRate).meteringReleaseK =
      discreteTimeConstantForSampleRate 0.325 sampleRate ∧
    (20 * Real.logb 10 postWarpGain < meteringGain →
      meteringStep (discreteTimeConstantForSampleRate 0.325 sampleRate)
        meteringGain postWarpGain = 20 * Real.logb 10 postWarpGain) ∧
    (¬ 20 * Real.logb 10 postWarpGain < meteringGain →
      meteringStep (discreteTimeConstantForSampleRate 0.325 sampleRate)
        meteringGain postWarpGain =
        meteringGain + (20 * Real.logb 10 postWarpGain - meteringGain) *
          (1 - Real.exp (-1 / (sampleRate * 0.325)))) := by
  refine ⟨rfl, ?_, ?_⟩
  · intro h
    unfold meteringStep
    rw [if_pos h]
  · intro h
    unfold meteringStep
    rw [if_neg h]
    rfl

/-- Witness for C8 amended, non-snap branch at sampleRate 1,
meteringGain = -30, postWarpGain = 1/10. -/
theorem meteringStep_snap_or_relax_witness :
    meteringStep (discreteTimeConstantForSampleRate 0.325 1) (-30) (1/10) =
      -30 + (20 * Real.logb 10 (1/10 : ℝ) - (-30)) * (1 - Real.exp (-1 / (1 * 0.325))) :=
  (meteringStep_snap_or_relax 1 (-30) (1/10)).2.2
    (by rw [logb_ten_tenth]; norm_num)

/-! The setPreDelayTime clamp. -/

lemma initializeState_last (sampleRate : ℝ) :
    (initializeState sampleRate).lastPreDelayFrames = 256 := rfl

lemma floor_big_request : Int.toNat ⌊(5000 : ℝ) * 1⌋ = 5000 := by
  rw [show (5000 : ℝ) * 1 = ((5000 : ℤ) : ℝ) by norm_num, Int.floor_intCast]
  rfl

/-- Counterexample for C3: the source clamps the requested delay-frame
count to MaxPreDelayFrames - 1 = 1023 = capacity - 1, not to
capacity - 2 = 1022 as claimed: a request of 5000 frames lands on 1023. -/
theorem setPreDelayTime_clamp_exceeds_capacity_minus_two :
    MaxPreDelayFrames - 2 <
      (setPreDelayTime (initializeState 1) 5000 1).lastPreDelayFrames ∧
    (setPreDelayTime (initializeState 1) 5000 1).lastPreDelayFrames =
      MaxPreDelayFrames - 1 := by
  have hclamp :
      (if (5000 : Nat) > MaxPreDelayFrames - 1 then MaxPreDelayFrames - 1 else (5000 : Nat)) =
        1023 := by
    rw [if_pos (by norm_num [MaxPreDelayFrames])]
    norm_num [MaxPreDelayFrames]
  have h : (setPreDelayTime (initializeState 1) 5000 1).lastPreDelayFrames =
      MaxPreDelayFrames - 1 := by
    unfold setPreDelayTime
    rw [floor_big_request]
    simp only [setPreDelayFrames, hclamp]
    rw [if_pos (by rw [initializeState_last]; norm_num)]
    norm_num [MaxPreDelayFrames]
  constructor
  · rw [h]
    norm_num [MaxPreDelayFrames]
  · exact h

/-- C3 amended: setPreDelayTime clamps the requested delay-frame count to
[0, capacity - 1] (capacity = 1024); if the clamped count differs from the
current delay it zeroes the entire pre-delay buffer and sets
readIndex = 0 and writeIndex = delayFrames, and if it equals the current
delay it leaves the state untouched. -/
theorem setPreDelayTime_clamp_and_reset (s : CompState) (preDelayTime sampleRate : ℝ) :
    (Int.toNat ⌊preDelayTime * sampleRate⌋ > MaxPreDelayFrames - 1 →
      ((s.lastPreDelayFrames ≠ MaxPreDelayFrames - 1 →
        setPreDelayTime s preDelayTime sampleRate =
          { s with lastPreDelayFrames := MaxPreDelayFrames - 1,
                   preDelayBuffer := fun _ _ => 0,
                   preDelayReadIndex := 0,
                   preDelayWriteIndex := MaxPreDelayFrames - 1 }) ∧
       (s.lastPreDelayFrames = MaxPreDelayFrames - 1 →
        setPreDelayTime s preDelayTime sampleRate = s))) ∧
    (¬ Int.toNat ⌊preDelayTime * sampleRate⌋ > MaxPreDelayFrames - 1 →
      ((s.lastPreDelayFrames ≠ Int.toNat ⌊preDelayTime * sampleRate⌋ →
        setPreDelayTime s preDelayTime sampleRate =
          { s with lastPreDelayFrames := Int.toNat ⌊preDelayTime * sampleRate⌋,
                   preDelayBuffer := fun _ _ => 0,
                   preDelayReadIndex := 0,
                   preDelayWriteIndex := Int.toNat ⌊preDelayTime * sampleRate⌋ }) ∧
       (s.lastPreDelayFrames = Int.toNat ⌊preDelayTime * sampleRate⌋ →
        setPreDelayTime s preDelayTime sampleRate = s))) := by
  unfold setPreDelayTime setPreDelayFrames
  constructor
  · intro hbig
    rw [if_pos hbig]
    constructor
    · intro hne
      rw [if_pos hne]
    · intro heq
      rw [if_neg (by rw [heq]; exact fun hh => hh rfl)]
  · intro hsmall
    rw [if_neg hsmall]
    constructor
    · intro hne
      rw [if_pos hne]
    · intro heq
      rw [if_neg (by rw [heq]; exact fun hh => hh rfl)]

/-- Witness for C3 amended: a zero-time request on the freshly initialized
node (current delay 256) resets the delay line for delay 0. -/
theorem setPreDelayTime_clamp_and_reset_witness :
    setPreDelayTime (initializeState 1) 0 1 =
      { initializeState 1 with lastPreDelayFrames := Int.toNat ⌊(0 : ℝ) * 1⌋,
                               preDelayBuffer := fun _ _ => 0,
                               preDelayReadIndex := 0,
                               preDelayWriteIndex := Int.toNat ⌊(0 : ℝ) * 1⌋ } :=
  ((setPreDelayTime_clamp_and_reset (initializeState 1) 0 1).2
    (by norm_num [MaxPreDelayFrames])).1
    (by rw [initializeState_last]; norm_num)

/-! Tagged-value fail-safe theorems. -/

/-- C5: in the tagged model of the non-finite paths, the detector value
stored by the inner loop is always finite; a non-finite detector produced
by the raw update is stored as 1; and the sub-block start turns a
non-finite m_detectorAverage into desiredGain 1 while passing finite
values through, so a non-finite detector value never reaches the gain
computation or the output samples. -/
theorem detector_failsafe_resets_to_one (d att rate : FloatVal) :
    (∃ x : ℝ, detectorUpdateTagged d att rate = some x) ∧
    (d = none → detectorUpdateTagged d att rate = some 1) ∧
    (d = none → desiredGainTagged d = some 1) ∧
    (∀ x : ℝ, desiredGainTagged (some x) = some x) := by
  refine ⟨?_, ?_, ?_, fun x => rfl⟩
  · unfold detectorUpdateTagged
    cases h : vMin1 (vAdd d (vMul (vSub att d) rate)) with
    | none => exact ⟨1, rfl⟩
    | some v => exact ⟨v, rfl⟩
  · intro hd
    subst hd
    unfold detectorUpdateTagged vSub vMul vAdd
    cases att <;> cases rate <;> rfl
  · intro hd
    subst hd
    rfl

/-- Witness for C5: a non-finite detector with finite attenuation 0 and
rate 1 is stored as the safe value 1. -/
theorem detector_failsafe_resets_to_one_witness :
    detectorUpdateTagged none (some 0) (some 1) = some 1 :=
  (detector_failsafe_resets_to_one none (some 0) (some 1)).2.1 rfl

/-! Delay-line index invariant. -/

lemma innerLoopBody_idx (ctx : SubCtx) (st : InnerState) (d : Nat)
    (h : st.preDelayWriteIndex = (st.preDelayReadIndex + d) % MaxPreDelayFrames) :
    (innerLoopBody ctx st).preDelayWriteIndex =
      ((innerLoopBody ctx st).preDelayReadIndex + d) % MaxPreDelayFrames := by
  have h1 : (innerLoopBody ctx st).preDelayReadIndex =
      (st.preDelayReadIndex + 1) % MaxPreDelayFrames := rfl
  have h2 : (innerLoopBody ctx st).preDelayWriteIndex =
      (st.preDelayWriteIndex + 1) % MaxPreDelayFrames := rfl
  rw [h1, h2, h]
  unfold MaxPreDelayFrames
  omega

lemma innerIter_idx (ctx : SubCtx) :
    ∀ (n : Nat) (st : InnerState) (d : Nat),
      st.preDelayWriteIndex = (st.preDelayReadIndex + d) % MaxPreDelayFrames →
      (innerIter ctx n st).preDelayWriteIndex =
        ((innerIter ctx n st).preDelayReadIndex + d) % MaxPreDelayFrames := by
  intro n
  induction n with
  | zero => intro st d h; exact h
  | succ n ih =>
      intro st d h
      exact ih (innerLoopBody ctx st) d (innerLoopBody_idx ctx st d h)

lemma subBlockStep_preDelayInv (pb : PerBlock) (ps : ProcState)
    (h : preDelayInv ps.comp) : preDelayInv (subBlockStep pb ps).comp := by
  have e : (subBlockStep pb ps).comp.preDelayReadIndex =
      (innerIter (subCtx pb ps.comp) 32
        (innerStart ps.comp ps.buffer ps.frameIndex)).preDelayReadIndex ∧
      (subBlockStep pb ps).comp.preDelayWriteIndex =
      (innerIter (subCtx pb ps.comp) 32
        (innerStart ps.comp ps.buffer ps.frameIndex)).preDelayWriteIndex ∧
      (subBlockStep pb ps).comp.lastPreDelayFrames = ps.comp.lastPreDelayFrames := by
    unfold subBlockStep
    exact ⟨rfl, rfl, rfl⟩
  unfold preDelayInv
  rw [e.1, e.2.1, e.2.2]
  exact innerIter_idx (subCtx pb ps.comp) 32 _ ps.comp.lastPreDelayFrames h

lemma subBlocksIter_preDelayInv (pb : PerBlock) :
    ∀ (n : Nat) (ps : ProcState),
      preDelayInv ps.comp → preDelayInv (subBlocksIter pb n ps).comp := by
  intro n
  induction n with
  | zero => intro ps h; exact h
  | succ n ih => intro ps h; exact ih _ (subBlockStep_preDelayInv pb ps h)

lemma setPreDelayFrames_preDelayInv (s : CompState) (n : Nat)
    (h : preDelayInv s) : preDelayInv (setPreDelayFrames s n) := by
  unfold setPreDelayFrames
  by_cases hne : s.lastPreDelayFrames ≠
      (if n > MaxPreDelayFrames - 1 then MaxPreDelayFrames - 1 else n)
  · rw [if_pos hne]
    unfold preDelayInv
    show (if n > MaxPreDelayFrames - 1 then MaxPreDelayFrames - 1 else n) =
      (0 + (if n > MaxPreDelayFrames - 1 then MaxPreDelayFrames - 1 else n)) %
        MaxPreDelayFrames
    by_cases hbig : n > MaxPreDelayFrames - 1
    · rw [if_pos hbig]
      unfold MaxPreDelayFrames
      omega
    · rw [if_neg hbig]
      unfold MaxPreDelayFrames at *
      omega
  · rw [if_neg hne]
    exact h

lemma process_eq (s : CompState) (buffer : Buf) (nCh nF : Nat) (p : Params) (sr : ℝ) :
    ∃ (pb : PerBlock) (s2 : CompState),
      process s buffer nCh nF p sr =
        ((subBlocksIter pb (nF / 32)
            { comp := s2, buffer := buffer, frameIndex := 0 }).comp,
         (subBlocksIter pb (nF / 32)
            { comp := s2, buffer := buffer, frameIndex := 0 }).buffer) ∧
      s2 = setPreDelayTime
          { s with curve :=
              (updateStaticCurveParameters s.curve p.dbThreshold p.dbKnee p.ratio).1 }
          0.006 sr ∧
      pb.curve = (updateStaticCurveParameters s.curve p.dbThreshold p.dbKnee p.ratio).1 ∧
      pb.k = (updateStaticCurveParameters s.curve p.dbThreshold p.dbKnee p.ratio).2 ∧
      pb.satReleaseFrames = 0.0025 * sr ∧
      pb.attackFrames = max 0.001 p.attackTime * sr :=
  ⟨_, _, rfl, rfl, rfl, rfl, rfl, rfl⟩

lemma process_preDelayInv (s : CompState) (buffer : Buf) (nCh nF : Nat)
    (p : Params) (sr : ℝ) (h : preDelayInv s) :
    preDelayInv (process s buffer nCh nF p sr).1 := by
  obtain ⟨pb, s2, heq, hs2, -, -, -, -⟩ := process_eq s buffer nCh nF p sr
  rw [heq]
  apply subBlocksIter_preDelayInv
  show preDelayInv s2
  rw [hs2]
  exact setPreDelayFrames_preDelayInv _ _ h

lemma floor_three_hundred : Int.toNat ⌊(300 : ℝ) * 1⌋ = 300 := by
  rw [show (300 : ℝ) * 1 = ((300 : ℤ) : ℝ) by norm_num, Int.floor_intCast]
  rfl

/-- Counterexample for C2: reset() restores writeIndex to the default 256
without updating m_lastPreDelayFrames, so after the reachable sequence
initialize, setPreDelayTime (300 frames), reset the invariant
writeIndex = (readIndex + delayFrames) mod 1024 is broken
(writeIndex = 256 while readIndex + delayFrames = 300). -/
theorem reset_breaks_predelay_invariant :
    ¬ preDelayInv (reset (setPreDelayTime (initializeState 1) 300 1)) := by
  have hclamp :
      (if (300 : Nat) > MaxPreDelayFrames - 1 then MaxPreDelayFrames - 1 else (300 : Nat)) =
        300 := by
    rw [if_neg (by norm_num [MaxPreDelayFrames])]
  have hstep : (setPreDelayTime (initializeState 1) 300 1).lastPreDelayFrames = 300 := by
    unfold setPreDelayTime
    rw [floor_three_hundred]
    simp only [setPreDelayFrames, hclamp]
    rw [if_pos (by rw [initializeState_last]; norm_num)]
  unfold preDelayInv
  have e1 : (reset (setPreDelayTime (initializeState 1) 300 1)).preDelayWriteIndex =
      DefaultPreDelayFrames := rfl
  have e2 : (reset (setPreDelayTime (initializeState 1) 300 1)).preDelayReadIndex = 0 := rfl
  have e3 : (reset (setPreDelayTime (initializeState 1) 300 1)).lastPreDelayFrames =
      (setPreDelayTime (initializeState 1) 300 1).lastPreDelayFrames := rfl
  rw [e1, e2, e3, hstep]
  norm_num [DefaultPreDelayFrames, MaxPreDelayFrames]

/-- C2 amended: the invariant writeIndex = (readIndex + delayFrames) mod
1024 holds right after initialize(), is established by every
setPreDelayTime() call, is preserved by every process() call sample by
sample, and is reestablished by reset() exactly when the currently
configured delay equals the default 256 frames; a reset() with any other
configured delay breaks it, because reset() restores the indices for the
default delay without updating m_lastPreDelayFrames. -/
theorem predelay_invariant_amended (sr t : ℝ) (s : CompState) (n : Nat)
    (buf : Buf) (nCh nF : Nat) (p : Params) :
    preDelayInv (initializeState sr) ∧
    (preDelayInv s → preDelayInv (setPreDelayFrames s n)) ∧
    (preDelayInv s → preDelayInv (setPreDelayTime s t sr)) ∧
    (preDelayInv s → preDelayInv (process s buf nCh nF p sr).1) ∧
    (s.lastPreDelayFrames = DefaultPreDelayFrames → preDelayInv (reset s)) := by
  refine ⟨?_, ?_, ?_, ?_, ?_⟩
  · show (DefaultPreDelayFrames : Nat) = (0 + DefaultPreDelayFrames) % MaxPreDelayFrames
    norm_num [DefaultPreDelayFrames, MaxPreDelayFrames]
  · exact setPreDelayFrames_preDelayInv s n
  · exact setPreDelayFrames_preDelayInv s _
  · exact process_preDelayInv s buf nCh nF p sr
  · intro h
    show (DefaultPreDelayFrames : Nat) = (0 + s.lastPreDelayFrames) % MaxPreDelayFrames
    rw [h]
    norm_num [DefaultPreDelayFrames, MaxPreDelayFrames]

/-- Witness for C2 amended: reset() right after initialize() (configured
delay still the default) does satisfy the invariant. -/
theorem predelay_invariant_amended_witness :
    preDelayInv (reset (initializeState 1)) :=
  (predelay_invariant_amended 1 0 (initializeState 1) 0 zeroBuf 0 0 defaultParams).2.2.2.2 rfl

/-! The attack-time floor. -/

/-- C10: process() clamps the evaluated attack-time parameter to a minimum
of 0.001 seconds before computing attackFrames, so for every attackTime
value at or below 1 ms (including zero and negative values) the whole call
behaves exactly as if attackTime were 0.001 s: the resulting state and the
resulting buffer are identical. -/
theorem process_attackTime_clamped (s : CompState) (buffer : Buf) (nCh nF : Nat)
    (p : Params) (sampleRate : ℝ) (hat : p.attackTime ≤ 0.001) :
    process s buffer nCh nF p sampleRate =
      process s buffer nCh nF { p with attackTime := 0.001 } sampleRate := by
  have h1 : max 0.001 p.attackTime = (0.001 : ℝ) := max_eq_left hat
  simp only [process, h1, max_self]

/-- Witness for C10: attackTime 0 and attackTime 0.001 give the same
process call on a concrete state and silent block. -/
theorem process_attackTime_clamped_witness :
    process demoState zeroBuf 1 32 { defaultParams with attackTime := 0 } 1 =
      process demoState zeroBuf 1 32 { defaultParams with attackTime := 0.001 } 1 :=
  process_attackTime_clamped demoState zeroBuf 1 32
    { defaultParams with attackTime := 0 } 1 (by norm_num [defaultParams])

/-! Interval invariant of the envelope state. -/

lemma saturate_nonneg (c : CurveState) (k x : ℝ) (hk : 0 < k)
    (hlt : 0 < c.linearThreshold) (hx : 0 ≤ x) : 0 ≤ saturate c x k := by
  unfold saturate
  by_cases h1 : x < c.kneeThreshold
  · rw [if_pos h1]
    unfold kneeCurve
    by_cases h2 : x < c.linearThreshold
    · rw [if_pos h2]; exact hx
    · rw [if_neg h2]
      have hge : c.linearThreshold ≤ x := not_lt.mp h2
      have hexp : Real.exp (-k * (x - c.linearThreshold)) ≤ 1 := by
        rw [Real.exp_le_one_iff]
        nlinarith
      have hdiv : 0 ≤ (1 - Real.exp (-k * (x - c.linearThreshold))) / k :=
        div_nonneg (by linarith) hk.le
      linarith
  · rw [if_neg h1]
    exact (Real.rpow_pos_of_pos (by norm_num) _).le

lemma decibelsToLinear_one_lt {e : ℝ} (he : 0 < e) : 1 < decibelsToLinear e := by
  unfold decibelsToLinear
  exact (Real.one_lt_rpow_iff_of_pos (by norm_num)).mpr (Or.inl ⟨by norm_num, by nlinarith⟩)

lemma detectorUpdate_mem (c : CurveState) (k srf d a : ℝ) (hk : 0 < k)
    (hlt : 0 < c.linearThreshold) (hsrf : 0 < srf)
    (hd0 : 0 ≤ d) (ha : 0 ≤ a) :
    0 ≤ detectorUpdate c k srf d a ∧ detectorUpdate c k srf d a ≤ 1 := by
  simp only [detectorUpdate]
  have hatt : 0 ≤ (if a ≤ 0.0001 then (1 : ℝ) else saturate c a k / a) := by
    by_cases hsm : a ≤ 0.0001
    · rw [if_pos hsm]; norm_num
    · rw [if_neg hsm]
      exact div_nonneg (saturate_nonneg c k a hk hlt ha) ha
  set att := (if a ≤ 0.0001 then (1 : ℝ) else saturate c a k / a) with hattdef
  set rate0 := decibelsToLinear (max 2 (-(linearToDecibels att)) / srf) - 1 with hr
  have hrate0 : 0 < rate0 := by
    rw [hr]
    have h2 : 0 < max 2 (-(linearToDecibels att)) / srf :=
      div_pos (lt_of_lt_of_le (by norm_num) (le_max_left _ _)) hsrf
    have h3 := decibelsToLinear_one_lt h2
    linarith
  constructor
  · by_cases hrel : att > d
    · rw [if_pos hrel]
      have hstep : 0 ≤ (att - d) * rate0 := mul_nonneg (by linarith) hrate0.le
      exact le_min (by norm_num) (by linarith)
    · rw [if_neg hrel]
      have : d + (att - d) * 1 = att := by ring
      rw [this]
      exact le_min (by norm_num) hatt
  · by_cases hrel : att > d
    · rw [if_pos hrel]; exact min_le_left _ _
    · rw [if_neg hrel]; exact min_le_left _ _

lemma gainUpdate_mem (er sdg g : ℝ) (her : 0 ≤ er) (hs0 : 0 ≤ sdg) (hs1 : sdg ≤ 1)
    (hg0 : 0 ≤ g) (hg1 : g ≤ 1) :
    0 ≤ gainUpdate er sdg g ∧ gainUpdate er sdg g ≤ 1 := by
  unfold gainUpdate
  by_cases h : er < 1
  · rw [if_pos h]
    constructor
    · nlinarith [mul_nonneg hg0 (by linarith : (0 : ℝ) ≤ 1 - er), mul_nonneg hs0 her]
    · nlinarith [mul_le_mul_of_nonneg_right hg1 (by linarith : (0 : ℝ) ≤ 1 - er),
        mul_le_mul_of_nonneg_right hs1 her]
  · rw [if_neg h]
    have h1 : (1 : ℝ) ≤ er := not_lt.mp h
    exact ⟨le_min (by norm_num) (mul_nonneg hg0 (by linarith)), min_le_left _ _⟩

lemma releaseEnvelopeRate_pos (pb : PerBlock) (cdd : ℝ) :
    0 < releaseEnvelopeRate pb cdd := by
  unfold releaseEnvelopeRate decibelsToLinear
  exact Real.rpow_pos_of_pos (by norm_num) _

lemma attackEnvelopeRate_nonneg (af m : ℝ) (haf : 0 < af) :
    0 ≤ attackEnvelopeRate af (max 0.5 m) := by
  unfold attackEnvelopeRate
  have he : (0 : ℝ) < max 0.5 m := lt_of_lt_of_le (by norm_num) (le_max_left _ _)
  have hx1 : 0.25 / max 0.5 m ≤ 1 := by
    rw [div_le_one he]
    calc (0.25 : ℝ) ≤ 0.5 := by norm_num
      _ ≤ max 0.5 m := le_max_left _ _
  have hle := Real.rpow_le_one (div_pos (by norm_num) he).le hx1
    (le_of_lt (by positivity : (0 : ℝ) < 1 / af))
  linarith

lemma subBlockDecision_envelopeRate_nonneg (pb : PerBlock) (s : CompState)
    (haf : 0 < pb.attackFrames) : 0 ≤ (subBlockDecision pb s).2.1 := by
  simp only [subBlockDecision]
  by_cases h : Real.arcsin s.detectorAverage / (Real.pi / 2) > s.compressorGain
  · rw [if_pos h]
    exact (releaseEnvelopeRate_pos pb _).le
  · rw [if_neg h]
    exact attackEnvelopeRate_nonneg _ _ haf

lemma subBlockDecision_sdg_mem (pb : PerBlock) (s : CompState)
    (hd0 : 0 ≤ s.detectorAverage) :
    0 ≤ (subBlockDecision pb s).2.2 ∧ (subBlockDecision pb s).2.2 ≤ 1 := by
  have hpi : 0 < Real.pi / 2 := by positivity
  have h0 : 0 ≤ Real.arcsin s.detectorAverage / (Real.pi / 2) :=
    div_nonneg (Real.arcsin_nonneg.mpr hd0) hpi.le
  have h1 : Real.arcsin s.detectorAverage / (Real.pi / 2) ≤ 1 := by
    rw [div_le_one hpi]
    exact Real.arcsin_le_pi_div_two _
  simp only [subBlockDecision]
  by_cases h : Real.arcsin s.detectorAverage / (Real.pi / 2) > s.compressorGain
  · rw [if_pos h]; exact ⟨h0, h1⟩
  · rw [if_neg h]; exact ⟨h0, h1⟩

lemma abs_pattern_nonneg (z : ℝ) : 0 ≤ if z > 0 then z else -z := by
  by_cases h : z > 0
  · rw [if_pos h]; exact h.le
  · rw [if_neg h]; simpa using not_lt.mp h

lemma innerLoopBody_fields (ctx : SubCtx) (st : InnerState) :
    ∃ a : ℝ,
      (innerLoopBody ctx st).detectorAverage =
        detectorUpdate ctx.curve ctx.k ctx.satReleaseFrames st.detectorAverage a ∧
      (innerLoopBody ctx st).compressorGain =
        gainUpdate ctx.envelopeRate ctx.scaledDesiredGain st.compressorGain ∧
      0 ≤ a :=
  ⟨_, rfl, rfl, abs_pattern_nonneg _⟩

lemma innerIter_inv01 (ctx : SubCtx) (hk : 0 < ctx.k)
    (hlt : 0 < ctx.curve.linearThreshold) (hsrf : 0 < ctx.satReleaseFrames)
    (her : 0 ≤ ctx.envelopeRate) (hs0 : 0 ≤ ctx.scaledDesiredGain)
    (hs1 : ctx.scaledDesiredGain ≤ 1) :
    ∀ (n : Nat) (st : InnerState),
      0 ≤ st.detectorAverage → st.detectorAverage ≤ 1 →
      0 ≤ st.compressorGain → st.compressorGain ≤ 1 →
      0 ≤ (innerIter ctx n st).detectorAverage ∧
      (innerIter ctx n st).detectorAverage ≤ 1 ∧
      0 ≤ (innerIter ctx n st).compressorGain ∧
      (innerIter ctx n st).compressorGain ≤ 1 := by
  intro n
  induction n with
  | zero => intro st h1 h2 h3 h4; exact ⟨h1, h2, h3, h4⟩
  | succ n ih =>
      intro st h1 h2 h3 h4
      obtain ⟨a, e1, e2, ha⟩ := innerLoopBody_fields ctx st
      have hdet := detectorUpdate_mem ctx.curve ctx.k ctx.satReleaseFrames
        st.detectorAverage a hk hlt hsrf h1 ha
      have hg := gainUpdate_mem ctx.envelopeRate ctx.scaledDesiredGain
        st.compressorGain her hs0 hs1 h3 h4
      exact ih (innerLoopBody ctx st) (by rw [e1]; exact hdet.1) (by rw [e1]; exact hdet.2)
        (by rw [e2]; exact hg.1) (by rw [e2]; exact hg.2)

lemma subBlockStep_Inv01 (pb : PerBlock) (ps : ProcState) (hpb : PerBlockOK pb)
    (h : Inv01 ps.comp) : Inv01 (subBlockStep pb ps).comp := by
  obtain ⟨hk, hlt, hsrf, haf⟩ := hpb
  obtain ⟨h1, h2, h3, h4⟩ := h
  have e : (subBlockStep pb ps).comp.detectorAverage =
      (innerIter (subCtx pb ps.comp) 32
        (innerStart ps.comp ps.buffer ps.frameIndex)).detectorAverage ∧
      (subBlockStep pb ps).comp.compressorGain =
      (innerIter (subCtx pb ps.comp) 32
        (innerStart ps.comp ps.buffer ps.frameIndex)).compressorGain := by
    unfold subBlockStep
    exact ⟨rfl, rfl⟩
  have hsdg := subBlockDecision_sdg_mem pb ps.comp h1
  have hiter := innerIter_inv01 (subCtx pb ps.comp) hk hlt hsrf
    (subBlockDecision_envelopeRate_nonneg pb ps.comp haf) hsdg.1 hsdg.2
    32 (innerStart ps.comp ps.buffer ps.frameIndex) h1 h2 h3 h4
  exact ⟨by rw [e.1]; exact hiter.1, by rw [e.1]; exact hiter.2.1,
    by rw [e.2]; exact hiter.2.2.1, by rw [e.2]; exact hiter.2.2.2⟩

lemma subBlockStep_curve (pb : PerBlock) (ps : ProcState) :
    (subBlockStep pb ps).comp.curve = ps.comp.curve := by
  unfold subBlockStep
  rfl

lemma subBlocksIter_Inv01 (pb : PerBlock) (hpb : PerBlockOK pb) :
    ∀ (n : Nat) (ps : ProcState), Inv01 ps.comp →
      Inv01 (subBlocksIter pb n ps).comp := by
  intro n
  induction n with
  | zero => intro ps h; exact h
  | succ n ih => intro ps h; exact ih _ (subBlockStep_Inv01 pb ps hpb h)

lemma subBlocksIter_curve (pb : PerBlock) :
    ∀ (n : Nat) (ps : ProcState),
      (subBlocksIter pb n ps).comp.curve = ps.comp.curve := by
  intro n
  induction n with
  | zero => intro ps; rfl
  | succ n ih => intro ps; rw [show subBlocksIter pb (n + 1) ps =
      subBlocksIter pb n (subBlockStep pb ps) from rfl, ih, subBlockStep_curve]

lemma kAtSlope_pos (c : CurveState) (d : ℝ) : 0 < kAtSlope c d := by
  obtain ⟨h1, -, -, h4, -⟩ :=
    kAtSlopeIter_inv c d (decibelsToLinear (c.dbThreshold + c.dbKnee)) 15
  have h0 : (0 : ℝ) < 0.1 := by norm_num
  exact h0.trans_le (h1.trans h4)

lemma computeStaticCurveParameters_CurveOK (c : CurveState) (t kd r : ℝ) :
    CurveOK (computeStaticCurveParameters c t kd r) := by
  constructor
  · exact Real.rpow_pos_of_pos (by norm_num) _
  · exact kAtSlope_pos _ _

lemma updateStaticCurveParameters_K_eq (c : CurveState) (t kd r : ℝ) :
    (updateStaticCurveParameters c t kd r).2 =
      (updateStaticCurveParameters c t kd r).1.K := by
  unfold updateStaticCurveParameters
  by_cases hcond : t ≠ c.dbThreshold ∨ kd ≠ c.dbKnee ∨ r ≠ c.ratio
  · rw [if_pos hcond]
  · rw [if_neg hcond]

lemma updateStaticCurveParameters_CurveOK (c : CurveState) (t kd r : ℝ)
    (h : CurveOK c) : CurveOK (updateStaticCurveParameters c t kd r).1 := by
  unfold updateStaticCurveParameters
  by_cases hcond : t ≠ c.dbThreshold ∨ kd ≠ c.dbKnee ∨ r ≠ c.ratio
  · rw [if_pos hcond]
    exact computeStaticCurveParameters_CurveOK c t kd r
  · rw [if_neg hcond]
    exact h

lemma setPreDelayFrames_Inv01 (s : CompState) (n : Nat) (h : Inv01 s) :
    Inv01 (setPreDelayFrames s n) := by
  unfold setPreDelayFrames
  by_cases hne : s.lastPreDelayFrames ≠
      (if n > MaxPreDelayFrames - 1 then MaxPreDelayFrames - 1 else n)
  · rw [if_pos hne]; exact h
  · rw [if_neg hne]; exact h

lemma setPreDelayFrames_curve (s : CompState) (n : Nat) :
    (setPreDelayFrames s n).curve = s.curve := by
  unfold setPreDelayFrames
  by_cases hne : s.lastPreDelayFrames ≠
      (if n > MaxPreDelayFrames - 1 then MaxPreDelayFrames - 1 else n)
  · rw [if_pos hne]
  · rw [if_neg hne]

lemma process_Inv01_CurveOK (s : CompState) (buffer : Buf) (nCh nF : Nat)
    (p : Params) (sr : ℝ) (hsr : 0 < sr) (hc : CurveOK s.curve) (h : Inv01 s) :
    Inv01 (process s buffer nCh nF p sr).1 ∧
    CurveOK (process s buffer nCh nF p sr).1.curve := by
  obtain ⟨pb, s2, heq, hs2, hcu, hk, hsrf, haf⟩ := process_eq s buffer nCh nF p sr
  have hcok : CurveOK pb.curve := by
    rw [hcu]; exact updateStaticCurveParameters_CurveOK _ _ _ _ hc
  have hpb : PerBlockOK pb := by
    refine ⟨?_, hcok.1, ?_, ?_⟩
    · rw [hk, updateStaticCurveParameters_K_eq]
      exact (updateStaticCurveParameters_CurveOK _ _ _ _ hc).2
    · rw [hsrf]; exact mul_pos (by norm_num) hsr
    · rw [haf]; exact mul_pos (lt_of_lt_of_le (by norm_num) (le_max_left _ _)) hsr
  have hs2inv : Inv01 s2 := by
    rw [hs2]
    exact setPreDelayFrames_Inv01 _ _ h
  have hs2curve : s2.curve = pb.curve := by
    rw [hs2, hcu]
    exact setPreDelayFrames_curve _ _
  constructor
  · rw [heq]
    exact subBlocksIter_Inv01 pb hpb _ _ hs2inv
  · rw [heq]
    show CurveOK (subBlocksIter pb (nF / 32)
      { comp := s2, buffer := buffer, frameIndex := 0 }).comp.curve
    rw [subBlocksIter_curve]
    show CurveOK s2.curve
    rw [hs2curve]
    exact hcok

lemma processCalls_Inv01 (sr : ℝ) (hsr : 0 < sr) :
    ∀ (calls : List (Buf × Nat × Nat × Params)) (s : CompState),
      Inv01 s → CurveOK s.curve → Inv01 (processCalls sr s calls) := by
  intro calls
  induction calls with
  | nil => intro s h _; exact h
  | cons c rest ih =>
      intro s h hc
      have hstep := process_Inv01_CurveOK s c.1 c.2.1 c.2.2.1 c.2.2.2 sr hsr hc h
      exact ih _ hstep.1 hstep.2

/-- C1: starting from reset() (detectorAverage 0, compressorGain 1) with
wellformed cached curve members (as any genuine parameter update computes
them) and a positive sample rate, every sequence of process() calls keeps
m_detectorAverage and m_compressorGain inside [0, 1]: every per-sample
detector update and every attack- or release-branch gain update preserves
the interval, and the invariant therefore holds after every call prefix. -/
theorem detector_and_gain_stay_in_unit_interval (s : CompState) (sampleRate : ℝ)
    (calls : List (Buf × Nat × Nat × Params)) (hsr : 0 < sampleRate)
    (hc : CurveOK s.curve) :
    Inv01 (processCalls sampleRate (reset s) calls) := by
  apply processCalls_Inv01 sampleRate hsr calls (reset s)
  · exact ⟨le_refl 0, by show (0 : ℝ) ≤ 1; norm_num, by show (0 : ℝ) ≤ 1; norm_num, le_refl 1⟩
  · exact hc

/-- Witness for C1 at a concrete state with a wellformed curve, sample
rate 1 and no blocks. -/
theorem detector_and_gain_stay_in_unit_interval_witness :
    Inv01 (processCalls 1 (reset demoState) []) :=
  detector_and_gain_stay_in_unit_interval demoState 1 [] (by norm_num)
    ⟨by show (0 : ℝ) < 1; norm_num, by show (0 : ℝ) < 1; norm_num⟩

/-! Buffer locality of the inner loop: each sample reads and writes the
audio buffer only at the current frame cursor. -/

lemma foldl_updBuf_point (l : List Nat) (g : Nat → ℝ) (fi : Nat) (b : Buf) (ch f : Nat) :
    (l.foldl (fun bb i => updBuf bb i fi (g i)) b) ch f =
      if ch ∈ l ∧ f = fi then g ch else b ch f := by
  induction l generalizing b with
  | nil =>
      rw [List.foldl_nil, if_neg]
      rintro ⟨hm, -⟩
      exact (List.not_mem_nil ch) hm
  | cons a l ih =>
      rw [List.foldl_cons, ih]
      by_cases hm : ch ∈ l ∧ f = fi
      · rw [if_pos hm, if_pos ⟨List.mem_cons_of_mem a hm.1, hm.2⟩]
      · rw [if_neg hm]
        simp only [updBuf]
        by_cases haf : ch = a ∧ f = fi
        · rw [if_pos haf, if_pos ⟨by rw [haf.1]; exact List.mem_cons_self a l, haf.2⟩, haf.1]
        · rw [if_neg haf, if_neg]
          rintro ⟨hmem, hfi⟩
          rcases List.mem_cons.mp hmem with hh | hh
          · exact haf ⟨hh, hfi⟩
          · exact hm ⟨hh, hfi⟩

lemma applyGain_point (numCh : Nat) (dly : Buf) (ri : Nat) (tg : ℝ) (b : Buf)
    (fi ch f : Nat) :
    applyGain numCh dly ri tg b fi ch f =
      if ch ∈ List.range numCh ∧ f = fi then dly ch ri * tg else b ch f := by
  unfold applyGain
  exact foldl_updBuf_point (List.range numCh) (fun i => dly i ri * tg) fi b ch f

lemma writeAndPeak_congr (numCh : Nat) (b1 b2 : Buf) (fi wi : Nat) (dly : Buf)
    (h : ∀ ch, b1 ch fi = b2 ch fi) :
    writeAndPeak numCh b1 fi wi dly = writeAndPeak numCh b2 fi wi dly := by
  unfold writeAndPeak
  have hfun : (fun (acc : Buf × ℝ) (i : Nat) =>
      let undelayedSource := b1 i fi
      let db := updBuf acc.1 i wi undelayedSource
      let absU := if undelayedSource > 0 then undelayedSource else -undelayedSource
      (db, if acc.2 < absU then absU else acc.2)) =
      (fun (acc : Buf × ℝ) (i : Nat) =>
      let undelayedSource := b2 i fi
      let db := updBuf acc.1 i wi undelayedSource
      let absU := if undelayedSource > 0 then undelayedSource else -undelayedSource
      (db, if acc.2 < absU then absU else acc.2)) := by
    funext acc i
    rw [h i]
  rw [hfun]

lemma innerLoopBody_projections (ctx : SubCtx) (st : InnerState) :
    (innerLoopBody ctx st).preDelayReadIndex =
      (st.preDelayReadIndex + 1) % MaxPreDelayFrames ∧
    (innerLoopBody ctx st).preDelayWriteIndex =
      (st.preDelayWriteIndex + 1) % MaxPreDelayFrames ∧
    (innerLoopBody ctx st).frameIndex = st.frameIndex + 1 ∧
    (innerLoopBody ctx st).delayBuffer =
      (writeAndPeak ctx.numberOfChannels st.buffer st.frameIndex
        st.preDelayWriteIndex st.delayBuffer).1 ∧
    (innerLoopBody ctx st).detectorAverage =
      detectorUpdate ctx.curve ctx.k ctx.satReleaseFrames st.detectorAverage
        (if (writeAndPeak ctx.numberOfChannels st.buffer st.frameIndex
              st.preDelayWriteIndex st.delayBuffer).2 > 0
         then (writeAndPeak ctx.numberOfChannels st.buffer st.frameIndex
              st.preDelayWriteIndex st.delayBuffer).2
         else -(writeAndPeak ctx.numberOfChannels st.buffer st.frameIndex
              st.preDelayWriteIndex st.delayBuffer).2) ∧
    (innerLoopBody ctx st).compressorGain =
      gainUpdate ctx.envelopeRate ctx.scaledDesiredGain st.compressorGain ∧
    (innerLoopBody ctx st).meteringGain =
      meteringStep ctx.meteringReleaseK st.meteringGain
        (Real.sin (Real.pi / 2 *
          gainUpdate ctx.envelopeRate ctx.scaledDesiredGain st.compressorGain)) ∧
    (innerLoopBody ctx st).buffer =
      applyGain ctx.numberOfChannels
        (writeAndPeak ctx.numberOfChannels st.buffer st.frameIndex
          st.preDelayWriteIndex st.delayBuffer).1
        st.preDelayReadIndex
        (ctx.dryMix + ctx.wetMix * ctx.masterLinearGain *
          Real.sin (Real.pi / 2 *
            gainUpdate ctx.envelopeRate ctx.scaledDesiredGain st.compressorGain))
        st.buffer st.frameIndex := by
  unfold innerLoopBody
  exact ⟨rfl, rfl, rfl, rfl, rfl, rfl, rfl, rfl⟩

lemma innerLoopBody_parallel (ctx : SubCtx) (bound : Nat) (st1 st2 : InnerState)
    (h : NonBufEq st1 st2) (hag : agreeBelow bound st1.buffer st2.buffer)
    (hfi : st1.frameIndex < bound) :
    NonBufEq (innerLoopBody ctx st1) (innerLoopBody ctx st2) ∧
    agreeBelow bound (innerLoopBody ctx st1).buffer (innerLoopBody ctx st2).buffer := by
  obtain ⟨h1, h2, h3, h4, h5, h6, h7⟩ := h
  have hwp : writeAndPeak ctx.numberOfChannels st1.buffer st1.frameIndex
      st1.preDelayWriteIndex st1.delayBuffer =
      writeAndPeak ctx.numberOfChannels st2.buffer st2.frameIndex
        st2.preDelayWriteIndex st2.delayBuffer := by
    rw [h2, h6, h7]
    exact writeAndPeak_congr ctx.numberOfChannels st1.buffer st2.buffer
      st2.frameIndex st2.preDelayWriteIndex st2.delayBuffer
      (fun ch => hag ch st2.frameIndex (h7 ▸ hfi))
  obtain ⟨p11, p12, p13, p14, p15, p16, p17, p18⟩ := innerLoopBody_projections ctx st1
  obtain ⟨p21, p22, p23, p24, p25, p26, p27, p28⟩ := innerLoopBody_projections ctx st2
  refine ⟨⟨?_, ?_, ?_, ?_, ?_, ?_, ?_⟩, ?_⟩
  · rw [p11, p21, h1]
  · rw [p12, p22, h2]
  · rw [p15, p25, h3, hwp]
  · rw [p16, p26, h4]
  · rw [p17, p27, h5, h4]
  · rw [p14, p24, hwp]
  · rw [p13, p23, h7]
  · intro ch f hf
    rw [p18, p28, hwp, h1, h4, h7, applyGain_point, applyGain_point]
    by_cases hm : ch ∈ List.range ctx.numberOfChannels ∧ f = st2.frameIndex
    · rw [if_pos hm, if_pos hm]
    · rw [if_neg hm, if_neg hm]
      exact hag ch f hf

lemma innerIter_parallel (ctx : SubCtx) (bound : Nat) :
    ∀ (n : Nat) (st1 st2 : InnerState),
      NonBufEq st1 st2 → agreeBelow bound st1.buffer st2.buffer →
      st1.frameIndex + n ≤ bound →
      NonBufEq (innerIter ctx n st1) (innerIter ctx n st2) ∧
      agreeBelow bound (innerIter ctx n st1).buffer (innerIter ctx n st2).buffer := by
  intro n
  induction n with
  | zero => intro st1 st2 h hag _; exact ⟨h, hag⟩
  | succ n ih =>
      intro st1 st2 h hag hfi
      have hb := innerLoopBody_parallel ctx bound st1 st2 h hag (by omega)
      have hfr : (innerLoopBody ctx st1).frameIndex = st1.frameIndex + 1 :=
        (innerLoopBody_projections ctx st1).2.2.1
      exact ih (innerLoopBody ctx st1) (innerLoopBody ctx st2) hb.1 hb.2
        (by rw [hfr]; omega)

lemma innerLoopBody_buffer_ne (ctx : SubCtx) (st : InnerState) (ch f : Nat)
    (hf : f ≠ st.frameIndex) :
    (innerLoopBody ctx st).buffer ch f = st.buffer ch f := by
  rw [(innerLoopBody_projections ctx st).2.2.2.2.2.2.2, applyGain_point,
    if_neg (fun hm => hf hm.2)]

lemma innerIter_untouched (ctx : SubCtx) :
    ∀ (n : Nat) (st : InnerState) (ch f : Nat),
      st.frameIndex + n ≤ f →
      (innerIter ctx n st).buffer ch f = st.buffer ch f := by
  intro n
  induction n with
  | zero => intro st ch f _; rfl
  | succ n ih =>
      intro st ch f h
      have hfr : (innerLoopBody ctx st).frameIndex = st.frameIndex + 1 :=
        (innerLoopBody_projections ctx st).2.2.1
      have hstep := ih (innerLoopBody ctx st) ch f (by rw [hfr]; omega)
      rw [show innerIter ctx (n + 1) st = innerIter ctx n (innerLoopBody ctx st) from rfl,
        hstep, innerLoopBody_buffer_ne ctx st ch f (by omega)]

lemma innerIter_frameIndex (ctx : SubCtx) :
    ∀ (n : Nat) (st : InnerState), (innerIter ctx n st).frameIndex = st.frameIndex + n := by
  intro n
  induction n with
  | zero => intro st; rfl
  | succ n ih =>
      intro st
      rw [show innerIter ctx (n + 1) st = innerIter ctx n (innerLoopBody ctx st) from rfl,
        ih, (innerLoopBody_projections ctx st).2.2.1]
      omega

lemma subBlockStep_projections (pb : PerBlock) (ps : ProcState) :
    (subBlockStep pb ps).comp =
      { ps.comp with
          maxAttackCompressionDiffDb := (subBlockDecision pb ps.comp).1,
          preDelayReadIndex := (innerIter (subCtx pb ps.comp) 32
            (innerStart ps.comp ps.buffer ps.frameIndex)).preDelayReadIndex,
          preDelayWriteIndex := (innerIter (subCtx pb ps.comp) 32
            (innerStart ps.comp ps.buffer ps.frameIndex)).preDelayWriteIndex,
          detectorAverage := (innerIter (subCtx pb ps.comp) 32
            (innerStart ps.comp ps.buffer ps.frameIndex)).detectorAverage,
          compressorGain := (innerIter (subCtx pb ps.comp) 32
            (innerStart ps.comp ps.buffer ps.frameIndex)).compressorGain,
          meteringGain := (innerIter (subCtx pb ps.comp) 32
            (innerStart ps.comp ps.buffer ps.frameIndex)).meteringGain,
          preDelayBuffer := (innerIter (subCtx pb ps.comp) 32
            (innerStart ps.comp ps.buffer ps.frameIndex)).delayBuffer } ∧
    (subBlockStep pb ps).buffer = (innerIter (subCtx pb ps.comp) 32
      (innerStart ps.comp ps.buffer ps.frameIndex)).buffer ∧
    (subBlockStep pb ps).frameIndex = (innerIter (subCtx pb ps.comp) 32
      (innerStart ps.comp ps.buffer ps.frameIndex)).frameIndex := by
  unfold subBlockStep
  exact ⟨rfl, rfl, rfl⟩

lemma subBlockStep_frameIndex (pb : PerBlock) (ps : ProcState) :
    (subBlockStep pb ps).frameIndex = ps.frameIndex + 32 := by
  rw [(subBlockStep_projections pb ps).2.2, innerIter_frameIndex]
  rfl

lemma subBlockStep_untouched (pb : PerBlock) (ps : ProcState) (ch f : Nat)
    (hf : ps.frameIndex + 32 ≤ f) :
    (subBlockStep pb ps).buffer ch f = ps.buffer ch f := by
  rw [(subBlockStep_projections pb ps).2.1]
  exact innerIter_untouched (subCtx pb ps.comp) 32
    (innerStart ps.comp ps.buffer ps.frameIndex) ch f hf

lemma subBlockStep_parallel (pb : PerBlock) (bound : Nat) (ps1 ps2 : ProcState)
    (hc : ps1.comp = ps2.comp) (hf : ps1.frameIndex = ps2.frameIndex)
    (hag : agreeBelow bound ps1.buffer ps2.buffer) (hfi : ps1.frameIndex + 32 ≤ bound) :
    (subBlockStep pb ps1).comp = (subBlockStep pb ps2).comp ∧
    (subBlockStep pb ps1).frameIndex = (subBlockStep pb ps2).frameIndex ∧
    agreeBelow bound (subBlockStep pb ps1).buffer (subBlockStep pb ps2).buffer := by
  obtain ⟨c1, b1, f1⟩ := subBlockStep_projections pb ps1
  obtain ⟨c2, b2eq, f2⟩ := subBlockStep_projections pb ps2
  have hpar := innerIter_parallel (subCtx pb ps2.comp) bound 32
    (innerStart ps2.comp ps1.buffer ps2.frameIndex)
    (innerStart ps2.comp ps2.buffer ps2.frameIndex)
    ⟨rfl, rfl, rfl, rfl, rfl, rfl, rfl⟩ hag
    (by show ps2.frameIndex + 32 ≤ bound; rw [← hf]; exact hfi)
  obtain ⟨⟨q1, q2, q3, q4, q5, q6, q7⟩, qag⟩ := hpar
  rw [hc, hf] at c1 b1 f1
  refine ⟨?_, ?_, ?_⟩
  · rw [c1, c2, q1, q2, q3, q4, q5, q6]
  · rw [f1, f2, q7]
  · intro ch f hflt
    rw [b1, b2eq]
    exact qag ch f hflt

lemma subBlocksIter_parallel (pb : PerBlock) (bound : Nat) :
    ∀ (n : Nat) (ps1 ps2 : ProcState),
      ps1.comp = ps2.comp → ps1.frameIndex = ps2.frameIndex →
      agreeBelow bound ps1.buffer ps2.buffer → ps1.frameIndex + 32 * n ≤ bound →
      (subBlocksIter pb n ps1).comp = (subBlocksIter pb n ps2).comp ∧
      (subBlocksIter pb n ps1).frameIndex = (subBlocksIter pb n ps2).frameIndex ∧
      agreeBelow bound (subBlocksIter pb n ps1).buffer (subBlocksIter pb n ps2).buffer := by
  intro n
  induction n with
  | zero => intro ps1 ps2 hc hf hag _; exact ⟨hc, hf, hag⟩
  | succ n ih =>
      intro ps1 ps2 hc hf hag hfi
      have hstep := subBlockStep_parallel pb bound ps1 ps2 hc hf hag (by omega)
      exact ih (subBlockStep pb ps1) (subBlockStep pb ps2) hstep.1 hstep.2.1 hstep.2.2
        (by rw [subBlockStep_frameIndex]; omega)

lemma subBlocksIter_untouched (pb : PerBlock) :
    ∀ (n : Nat) (ps : ProcState) (ch f : Nat),
      ps.frameIndex + 32 * n ≤ f →
      (subBlocksIter pb n ps).buffer ch f = ps.buffer ch f := by
  intro n
  induction n with
  | zero => intro ps ch f _; rfl
  | succ n ih =>
      intro ps ch f h
      have hstep := ih (subBlockStep pb ps) ch f (by rw [subBlockStep_frameIndex]; omega)
      rw [show subBlocksIter pb (n + 1) ps = subBlocksIter pb n (subBlockStep pb ps) from rfl,
        hstep, subBlockStep_untouched pb ps ch f (by omega)]

lemma process_eq2 (s : CompState) (nCh nF : Nat) (p : Params) (sr : ℝ) :
    ∃ (pb : PerBlock) (s2 : CompState),
      ∀ buffer : Buf,
        process s buffer nCh nF p sr =
          ((subBlocksIter pb (nF / 32)
              { comp := s2, buffer := buffer, frameIndex := 0 }).comp,
           (subBlocksIter pb (nF / 32)
              { comp := s2, buffer := buffer, frameIndex := 0 }).buffer) :=
  ⟨_, _, fun _ => rfl⟩

/-- C9: process() touches only the first 32 * (numFrames / 32) frames: with
a frame count that is not a multiple of 32 the final numFrames mod 32
frames of the buffer are returned exactly as they came in (no gain is
applied to them and nothing is read from them into the processor), and the
resulting processor state is identical for any two input buffers that
agree on the processed prefix — the remainder frames are silently
ignored. -/
theorem process_ignores_remainder_frames (s : CompState) (b b2 : Buf)
    (nCh nF : Nat) (p : Params) (sr : ℝ)
    (hag : ∀ ch f, f < 32 * (nF / 32) → b ch f = b2 ch f) :
    (process s b nCh nF p sr).1 = (process s b2 nCh nF p sr).1 ∧
    (∀ ch f, 32 * (nF / 32) ≤ f → (process s b nCh nF p sr).2 ch f = b ch f) := by
  obtain ⟨pb, s2, hall⟩ := process_eq2 s nCh nF p sr
  constructor
  · rw [hall b, hall b2]
    have hpar := subBlocksIter_parallel pb (32 * (nF / 32)) (nF / 32)
      { comp := s2, buffer := b, frameIndex := 0 }
      { comp := s2, buffer := b2, frameIndex := 0 } rfl rfl hag
      (by show 0 + 32 * (nF / 32) ≤ 32 * (nF / 32); omega)
    exact hpar.1
  · intro ch f hf
    rw [hall b]
    exact subBlocksIter_untouched pb (nF / 32)
      { comp := s2, buffer := b, frameIndex := 0 } ch f
      (by show 0 + 32 * (nF / 32) ≤ f; omega)

/-- Witness for C9 at numFrames = 33: frame 32 of the output equals the
input sample. -/
theorem process_ignores_remainder_frames_witness :
    (process demoState zeroBuf 1 33 defaultParams 1).2 0 32 = zeroBuf 0 32 :=
  (process_ignores_remainder_frames demoState zeroBuf zeroBuf 1 33 defaultParams 1
    (fun _ _ _ => rfl)).2 0 32 (by norm_num)

end

end Mason
